import Mathlib

/-!
Verification of the organizational-chart explorer (a Vue/TypeScript
repository) against its natural-language specification.

The development shallowly embeds the pure logic of the repository:

* `src/utils/helpers.ts`: `filterByExactParentID`, `exportToCSV`
  (its CSV-text construction), `getEndpointForRootNodes`;
* `src/components/common/Button.vue`: the button's `handleClick`, and the
  create-node modal's `validateForm`, `resetAndEmit`, `handleSubmit`;
* the Fetch Coordinator and Node Repository described by the spec
  (their store module is not part of the given sources, so they are
  modelled from the spec's words).

JavaScript particulars are embedded explicitly: array indexing with a
possibly-negative index yields `undefined` (here `Option.none`), and the
`%` operator is the truncated remainder (`Int.tmod`).
-/

/-- A tree node, as described by the spec's data model (§3) and as consumed
by `filterByExactParentID`.  `parentId = none` is the null root sentinel. -/
structure Node where
  id : String
  parentId : Option String
  label : String
  description : String
  numberOfEmployees : Int
  deriving DecidableEq, Repr

/-- `filterByExactParentID` from `src/utils/helpers.ts` (lines 11-16):
`data.filter((item) => item.parentId === parentId)`. -/
def filterByExactParentID (data : List Node) (parentId : Option String) :
    List Node :=
  data.filter (fun item => item.parentId = parentId)

/-- The two backend endpoints that `getEndpointForRootNodes` selects from
(`API_ENDPOINTS.DEPARTMENTS2`, `API_ENDPOINTS.DEPARTMENTS3`). -/
inductive Endpoint where
  | DEPARTMENTS2
  | DEPARTMENTS3
  deriving DecidableEq, Repr

/-- The fixed ordered endpoint list built inside `getEndpointForRootNodes`. -/
def rootEndpoints : List Endpoint :=
  [Endpoint.DEPARTMENTS2, Endpoint.DEPARTMENTS3]

/-- JavaScript array indexing `a[i]`: a negative or out-of-range index
yields `undefined`, embedded as `none`. -/
def jsGetElem {α : Type} (l : List α) (i : Int) : Option α :=
  if 0 ≤ i then l.get? i.toNat else none

/-- `getEndpointForRootNodes` from `src/utils/helpers.ts` (lines 117-122):
`endpoints[(page - 1) % endpoints.length]`, where `%` is JavaScript's
truncated remainder. -/
def getEndpointForRootNodes (page : Int) : Option Endpoint :=
  jsGetElem rootEndpoints ((page - 1).tmod rootEndpoints.length)

/-- JavaScript `Array.prototype.join(sep)`: empty array gives `""`,
otherwise the elements with `sep` between consecutive ones, folded left to
right. -/
def jsJoin (sep : String) (l : List String) : String :=
  match l with
  | [] => ""
  | a :: t => t.foldl (fun acc x => acc ++ sep ++ x) a

/-- Doubling of embedded double quotes: `s.replace(/"/g, '""')` as used by
`exportToCSV` on headers and cells. -/
def escapeQuotes (s : String) : String :=
  String.join (s.data.map (fun c =>
    if c = '"' then "\"\"" else String.singleton c))

/-- One quoted CSV field: wrap in double quotes after doubling embedded
quotes. -/
def quoteField (s : String) : String :=
  "\"" ++ escapeQuotes s ++ "\""

/-- One CSV cell as rendered by `exportToCSV`: `null`/`undefined` (here
`none`) becomes the empty quoted string, any other value is stringified,
quote-escaped and wrapped in quotes. -/
def renderCell (cell : Option String) : String :=
  match cell with
  | none => "\"\""
  | some s => quoteField s

/-- The header line `csvHeaders` built by `exportToCSV` (lines 46-48). -/
def csvHeaderLine (headers : List String) : String :=
  jsJoin "," (headers.map quoteField)

/-- One row's text built by `exportToCSV` (lines 52-60). -/
def csvRowLine (row : List (Option String)) : String :=
  jsJoin "," (row.map renderCell)

/-- The full CSV text `csvContent` built by `exportToCSV` in
`src/utils/helpers.ts` (lines 40-65): `` `${csvHeaders}\n${csvRows}` ``
where `csvRows` joins the row texts with `"\n"`.  The subsequent Blob/DOM
download is browser I/O outside the embedding. -/
def exportToCSVContent (sortedAndFilteredRows : List (List (Option String)))
    (headers : List String) : String :=
  csvHeaderLine headers ++ "\n" ++
    jsJoin "\n" (sortedAndFilteredRows.map csvRowLine)

/-- Joining with a separator, written by direct recursion; used to state
what `exportToCSV` builds independently of JavaScript's fold-based
`Array.join`. -/
def sepJoin (sep : String) : List String → String
  | [] => ""
  | [a] => a
  | a :: b :: t => a ++ sep ++ sepJoin sep (b :: t)

/-- A CSV field as the claim describes it: wrapped in double quotes with
embedded double quotes doubled (escaping stated character by character). -/
def quoteFieldSpec (s : String) : String :=
  "\"" ++
    String.mk (s.data.flatMap (fun c =>
      if c = '"' then ['"', '"'] else [c])) ++
    "\""

/-- A CSV cell as the claim describes it: a `null`/`undefined` cell is the
empty quoted string. -/
def renderCellSpec (cell : Option String) : String :=
  match cell with
  | none => "\"\""
  | some s => quoteFieldSpec s

/-- One row's line as the claim describes it: the quoted cells joined by
commas. -/
def csvRowLineSpec (row : List (Option String)) : String :=
  sepJoin "," (row.map renderCellSpec)

/-- The header line as the claim describes it. -/
def csvHeaderLineSpec (headers : List String) : String :=
  sepJoin "," (headers.map quoteFieldSpec)

/-- `handleClick` from the Button component in
`src/components/common/Button.vue` (lines 27-31); returns how many times
the `action` prop is invoked by one click. -/
def handleClick (disabled loading : Bool) : Nat :=
  if !disabled && !loading then 1 else 0

/-- The reactive input fields of the create-node modal:
`newNodeLabel`, `description`, `numberOfEmployees` (a `number | null`). -/
structure FormState where
  newNodeLabel : String
  description : String
  numberOfEmployees : Option Int
  deriving DecidableEq, Repr

/-- JavaScript `String.prototype.trim()`: strip leading and trailing
whitespace characters. -/
def jsTrim (s : String) : String :=
  String.mk
    (((s.data.dropWhile Char.isWhitespace).reverse.dropWhile
        Char.isWhitespace).reverse)

/-- The per-field error record built by `validateForm`; `none` means the
field passed. -/
structure FormErrors where
  label : Option String
  description : Option String
  numberOfEmployees : Option String
  deriving DecidableEq, Repr

/-- The `errors` record computed by `validateForm` in the create-node modal
(`Button.vue`, lines 93-116): label empty after trimming, description empty
after trimming, employee count `null` or negative. -/
def validateFormErrors (f : FormState) : FormErrors where
  label :=
    if jsTrim f.newNodeLabel = "" then some "empty_node_label" else none
  description :=
    if jsTrim f.description = "" then some "empty_description" else none
  numberOfEmployees :=
    match f.numberOfEmployees with
    | none => some "invalid_employee_count"
    | some n => if n < 0 then some "invalid_employee_count" else none

/-- `validateForm`'s return value: `true` iff the error record is empty. -/
def validateForm (f : FormState) : Bool :=
  validateFormErrors f = ⟨none, none, none⟩

/-- The payload emitted on submit: the node constructed by `handleSubmit`
(lines 131-136). -/
structure NewNode where
  label : String
  parentId : Option String
  description : String
  numberOfEmployees : Option Int
  deriving DecidableEq, Repr

/-- Events emitted by the create-node modal. -/
inductive EmitEvent where
  | submit (n : NewNode)
  | close
  deriving DecidableEq, Repr

/-- `resetAndEmit` (`Button.vue`, lines 77-88): emit `submit` with the
constructed node, clear the three input fields, emit `close`.  The emitted
node carries the field values from before the reset. -/
def resetAndEmit (newNode : NewNode) : FormState × List EmitEvent :=
  (⟨"", "", none⟩, [EmitEvent.submit newNode, EmitEvent.close])

/-- `handleSubmit` (`Button.vue`, lines 121-139): validate; on failure set
`isInputValid := false` and return with no emit and fields untouched; on
success set `isInputValid := true`, build the node from the current fields
and the `parentId` prop, and call `resetAndEmit`.  Result:
(fields after, isInputValid after, emitted events in order). -/
def handleSubmit (parentId : Option String) (f : FormState) :
    FormState × Bool × List EmitEvent :=
  if validateForm f = false then
    (f, false, [])
  else
    let newNode : NewNode :=
      ⟨f.newNodeLabel, parentId, f.description, f.numberOfEmployees⟩
    let r := resetAndEmit newNode
    (r.1, true, r.2)

/-- Modelled from the spec: the Fetch Coordinator (§4.3), whose store
module (`stores/dyanmicTree`) is not among the given sources.  A load
request is keyed by a string (`parentId` or `root:p`); an event is a new
load request or the completion (success or failure) of an outstanding
one. -/
inductive FetchEvent where
  | request (key : String)
  | complete (key : String)
  deriving DecidableEq, Repr

/-- Modelled from the spec: Fetch Coordinator state — the set of in-flight
request keys, and the log of network fetch calls actually issued. -/
structure CoordState where
  inFlight : List String
  calls : List String
  deriving DecidableEq, Repr

/-- Modelled from the spec (§4.3): a request whose key is already in flight
is ignored; otherwise the key is added to the in-flight set and one network
call is issued.  Completion removes the key from the in-flight set. -/
def coordStep (s : CoordState) : FetchEvent → CoordState
  | FetchEvent.request k =>
      if k ∈ s.inFlight then s
      else { inFlight := k :: s.inFlight, calls := s.calls ++ [k] }
  | FetchEvent.complete k =>
      { s with inFlight := s.inFlight.erase k }

/-- Run the Fetch Coordinator over a sequence of events. -/
def coordRun (s : CoordState) (events : List FetchEvent) : CoordState :=
  events.foldl coordStep s

/-- The Fetch Coordinator's initial state: nothing in flight, no calls. -/
def coordInit : CoordState := ⟨[], []⟩

/-- Modelled from the spec: the Node Repository (§4.1) as the ordered list
of stored nodes; its ids. -/
def repoIds (repo : List Node) : List String :=
  repo.map (fun n => n.id)

/-- Modelled from the spec (§4.5, §5): the Creation Workflow's optimistic
insert appends the temporary node at the end of the Repository. -/
def insertNode (n : Node) (repo : List Node) : List Node :=
  repo ++ [n]

/-- Modelled from the spec (§4.1): `remove(id)` deletes the node with the
given id from the Repository. -/
def removeNode (i : String) (repo : List Node) : List Node :=
  repo.filter (fun n => n.id ≠ i)

/-! ## Theorems -/

/-- C2: for every list of nodes and every parent id (including the null
root sentinel), `filterByExactParentID` returns exactly the nodes whose
`parentId` strictly equals the given id: membership in the result is
equivalent to membership in the input with an exactly matching `parentId`,
so no node with a different `parentId` ever appears. -/
theorem filterByExactParentID_mem_iff (data : List Node)
    (parentId : Option String) (x : Node) :
    x ∈ filterByExactParentID data parentId ↔
      x ∈ data ∧ x.parentId = parentId := by
  simp [filterByExactParentID, List.mem_filter]

/-- C7: for every input list and parent id, the result of
`filterByExactParentID` is a sublist (subsequence) of the input, so the
backend-returned relative order of children within a parent is
preserved. -/
theorem filterByExactParentID_sublist (data : List Node)
    (parentId : Option String) :
    (filterByExactParentID data parentId).Sublist data :=
  List.filter_sublist data

/-- C9: the Button's click handler invokes the `action` prop exactly once
iff both `disabled` and `loading` are false, and zero times iff either is
true. -/
theorem handleClick_calls_action_iff_enabled :
    ∀ disabled loading : Bool,
      (handleClick disabled loading = 1 ↔
        disabled = false ∧ loading = false) ∧
      (handleClick disabled loading = 0 ↔
        (disabled = true ∨ loading = true)) := by
  decide

/-- C5: if the temporary node's id is fresh, removing it again after the
optimistic insert restores the Repository exactly — the full contents, and
in particular the id set, are identical to the state before the insert
(modelled from the spec, §4.1/§4.5: the Creation Workflow's rollback on
`createNode` rejection). -/
theorem createNode_rollback_restores (repo : List Node) (n : Node)
    (h : n.id ∉ repoIds repo) :
    removeNode n.id (insertNode n repo) = repo ∧
    repoIds (removeNode n.id (insertNode n repo)) = repoIds repo := by
  have hfilter : removeNode n.id (insertNode n repo) = repo := by
    unfold removeNode insertNode
    rw [List.filter_append]
    have h1 : [n].filter (fun m => m.id ≠ n.id) = [] := by simp
    have h2 : repo.filter (fun m => m.id ≠ n.id) = repo := by
      apply List.filter_eq_self.mpr
      intro m hm
      simp only [decide_eq_true_eq, ne_eq]
      intro hEq
      exact h (hEq ▸ List.mem_map_of_mem (fun x => x.id) hm)
    rw [h1, h2, List.append_nil]
  exact ⟨hfilter, by rw [hfilter]⟩

/-- Witness for C5 at a concrete repository and temporary node. -/
theorem createNode_rollback_restores_witness :
    (("t1" : String) ∉ repoIds [Node.mk "s1" none "a" "b" 1]) ∧
    removeNode "t1"
        (insertNode (Node.mk "t1" (some "s1") "c" "d" 2)
          [Node.mk "s1" none "a" "b" 1]) =
      [Node.mk "s1" none "a" "b" 1] := by
  refine ⟨by decide, ?_⟩
  exact (createNode_rollback_restores [Node.mk "s1" none "a" "b" 1]
    (Node.mk "t1" (some "s1") "c" "d" 2) (by decide)).1

/-- One Fetch Coordinator step keeps the in-flight set duplicate-free. -/
theorem coordStep_nodup (s : CoordState) (e : FetchEvent)
    (h : s.inFlight.Nodup) : (coordStep s e).inFlight.Nodup := by
  cases e with
  | request k =>
      simp only [coordStep]
      split
      · exact h
      · exact List.Nodup.cons (by assumption) h
  | complete k => exact h.erase k

/-- Running any event sequence keeps the in-flight set duplicate-free. -/
theorem coordRun_nodup (t : List FetchEvent) :
    ∀ s : CoordState, s.inFlight.Nodup → (coordRun s t).inFlight.Nodup := by
  induction t with
  | nil => intro s h; exact h
  | cons e t ih =>
      intro s h
      exact ih (coordStep s e) (coordStep_nodup s e h)

/-- C4: in every Fetch Coordinator state reachable from the initial state
by any event sequence, the in-flight set holds each key at most once; a
request for a key already in flight leaves the state unchanged (no
duplicate call); and requesting the same key twice in a row before any
completion issues exactly one network call when the key was not in flight
and none when it was (modelled from the spec, §4.3). -/
theorem fetchCoordinator_dedup (t : List FetchEvent) (k : String) :
    (coordRun coordInit t).inFlight.Nodup ∧
    (k ∈ (coordRun coordInit t).inFlight →
      coordStep (coordRun coordInit t) (FetchEvent.request k) =
        coordRun coordInit t) ∧
    ((coordStep (coordStep (coordRun coordInit t) (FetchEvent.request k))
        (FetchEvent.request k)).calls.count k =
      (coordRun coordInit t).calls.count k +
        (if k ∈ (coordRun coordInit t).inFlight then 0 else 1)) := by
  set s := coordRun coordInit t with hs
  refine ⟨coordRun_nodup t coordInit (by simp [coordInit]), ?_, ?_⟩
  · intro hk
    simp [coordStep, hk]
  · by_cases hk : k ∈ s.inFlight
    · simp [coordStep, hk]
    · simp only [coordStep, if_neg hk]
      have hk2 : k ∈ k :: s.inFlight := List.mem_cons_self k s.inFlight
      simp [hk2, hk, List.count_append]

/-- Witness for C4: after one request for key `"42"`, the key is in
flight and a second request is ignored. -/
theorem fetchCoordinator_dedup_witness :
    ("42" ∈ (coordRun coordInit [FetchEvent.request "42"]).inFlight) ∧
    coordStep (coordRun coordInit [FetchEvent.request "42"])
        (FetchEvent.request "42") =
      coordRun coordInit [FetchEvent.request "42"] :=
  ⟨by decide,
   (fetchCoordinator_dedup [FetchEvent.request "42"] "42").2.1 (by decide)⟩

/-- Evaluation of the root source selector at a positive page written as
`k + 1`: the selected entry is the one at index `k mod 2`. -/
theorem getEndpointForRootNodes_eval (k : Nat) :
    getEndpointForRootNodes ((k : Int) + 1) = rootEndpoints.get? (k % 2) := by
  unfold getEndpointForRootNodes jsGetElem
  have h1 : ((k : Int) + 1 - 1) = (k : Int) := by ring
  rw [h1]
  have h2 : (k : Int).tmod (rootEndpoints.length : Int) =
      ((k % 2 : Nat) : Int) := by
    show (k : Int).tmod ((2 : Nat) : Int) = ((k % 2 : Nat) : Int)
    exact_mod_cast rfl
  rw [h2, if_pos (Int.natCast_nonneg _)]
  norm_cast

/-- C1: for every 1-based page `p ≥ 1`, `getEndpointForRootNodes` returns
the endpoint at index `(p - 1) mod N` of the fixed list
`[DEPARTMENTS2, DEPARTMENTS3]` (`N = 2`), and is periodic with period `N`;
pages 1, 2, 3, 4 select `DEPARTMENTS2, DEPARTMENTS3, DEPARTMENTS2,
DEPARTMENTS3`, cycling through all endpoints before repeating. -/
theorem getEndpointForRootNodes_round_robin :
    (∀ p : Nat, 1 ≤ p →
      getEndpointForRootNodes (p : Int) =
        rootEndpoints.get? ((p - 1) % rootEndpoints.length) ∧
      getEndpointForRootNodes ((p + rootEndpoints.length : Nat) : Int) =
        getEndpointForRootNodes (p : Int)) ∧
    getEndpointForRootNodes 1 = some Endpoint.DEPARTMENTS2 ∧
    getEndpointForRootNodes 2 = some Endpoint.DEPARTMENTS3 ∧
    getEndpointForRootNodes 3 = some Endpoint.DEPARTMENTS2 ∧
    getEndpointForRootNodes 4 = some Endpoint.DEPARTMENTS3 := by
  refine ⟨?_, by decide, by decide, by decide, by decide⟩
  intro p hp
  obtain ⟨k, rfl⟩ : ∃ k, p = k + 1 := ⟨p - 1, by omega⟩
  have hcast : ((k + 1 : Nat) : Int) = (k : Int) + 1 := by push_cast; ring
  have hcast2 : ((k + 1 + rootEndpoints.length : Nat) : Int) =
      ((k + 2 : Nat) : Int) + 1 := by
    show ((k + 1 + 2 : Nat) : Int) = ((k + 2 : Nat) : Int) + 1
    push_cast; ring
  constructor
  · rw [hcast, getEndpointForRootNodes_eval]
    congr 1
  · rw [hcast2, getEndpointForRootNodes_eval, hcast,
      getEndpointForRootNodes_eval]
    congr 1
    omega

/-- Witness for C1 at page 3. -/
theorem getEndpointForRootNodes_round_robin_witness :
    (1 ≤ 3) ∧
    getEndpointForRootNodes ((3 : Nat) : Int) =
      rootEndpoints.get? ((3 - 1) % rootEndpoints.length) :=
  ⟨by decide,
   (getEndpointForRootNodes_round_robin.1 3 (by decide)).1⟩

/-- C8: page 0 lies outside the documented 1-based range and yields no
endpoint: the computed index `(0 - 1) % 2` is `-1` under JavaScript's
truncated remainder, indexing at `-1` is `undefined`, so
`getEndpointForRootNodes 0 = none`, while every page `p ≥ 1` does return
an endpoint. -/
theorem getEndpointForRootNodes_zero_is_undefined :
    ((0 : Int) - 1).tmod (rootEndpoints.length : Int) = -1 ∧
    jsGetElem rootEndpoints (-1) = none ∧
    getEndpointForRootNodes 0 = none ∧
    (∀ p : Nat, 1 ≤ p →
      (getEndpointForRootNodes (p : Int)).isSome = true) := by
  refine ⟨by decide, by decide, by decide, ?_⟩
  intro p hp
  obtain ⟨k, rfl⟩ : ∃ k, p = k + 1 := ⟨p - 1, by omega⟩
  have hcast : ((k + 1 : Nat) : Int) = (k : Int) + 1 := by push_cast; ring
  rw [hcast, getEndpointForRootNodes_eval]
  have h : k % 2 = 0 ∨ k % 2 = 1 := by omega
  rcases h with h | h <;> rw [h] <;> rfl

/-- Witness for C8: page 0 yields no endpoint, page 5 yields one. -/
theorem getEndpointForRootNodes_zero_is_undefined_witness :
    getEndpointForRootNodes 0 = none ∧
    (1 ≤ 5) ∧
    (getEndpointForRootNodes ((5 : Nat) : Int)).isSome = true :=
  ⟨getEndpointForRootNodes_zero_is_undefined.2.2.1,
   by decide,
   getEndpointForRootNodes_zero_is_undefined.2.2.2 5 (by decide)⟩

/-- C3: `validateForm` reports exactly the violated fields, all
simultaneously: the label error appears iff the label is empty after
trimming, the description error iff the description is empty after
trimming, the employee-count error iff the count is absent or negative;
validation succeeds iff no rule is violated; and the concrete input with
empty label and negative count yields both `empty_node_label` and
`invalid_employee_count` while the description error is absent. -/
theorem validateForm_reports_all_violations :
    (∀ f : FormState,
      ((validateFormErrors f).label = some "empty_node_label" ↔
        jsTrim f.newNodeLabel = "") ∧
      ((validateFormErrors f).description = some "empty_description" ↔
        jsTrim f.description = "") ∧
      ((validateFormErrors f).numberOfEmployees =
          some "invalid_employee_count" ↔
        (f.numberOfEmployees = none ∨
          ∃ n, f.numberOfEmployees = some n ∧ n < 0)) ∧
      (validateForm f = true ↔
        (jsTrim f.newNodeLabel ≠ "" ∧ jsTrim f.description ≠ "" ∧
          ∃ n, f.numberOfEmployees = some n ∧ 0 ≤ n))) ∧
    (validateFormErrors ⟨"", "desc", some (-5)⟩).label =
      some "empty_node_label" ∧
    (validateFormErrors ⟨"", "desc", some (-5)⟩).numberOfEmployees =
      some "invalid_employee_count" ∧
    (validateFormErrors ⟨"", "desc", some (-5)⟩).description = none := by
  refine ⟨?_, by decide, by decide, by decide⟩
  rintro ⟨l, d, e⟩
  refine ⟨?_, ?_, ?_, ?_⟩
  · simp only [validateFormErrors]
    split_ifs with h <;> simp [h]
  · simp only [validateFormErrors]
    split_ifs with h <;> simp [h]
  · simp only [validateFormErrors]
    cases e with
    | none => simp
    | some n =>
        dsimp only
        split_ifs with h <;> simp [h]
  · simp only [validateForm, validateFormErrors, decide_eq_true_eq,
      FormErrors.mk.injEq]
    cases e with
    | none =>
        split_ifs <;> simp_all
    | some n =>
        split_ifs with h1 h2 h3 <;> simp_all

/-- C6: the modal's fields are reset only after a successful submit emit:
when validation fails, `handleSubmit` emits nothing and leaves all three
field values unchanged; when it passes, the emitted `submit` event carries
the node built from the pre-reset field values (followed by `close`), and
only the returned state has the fields cleared. -/
theorem handleSubmit_resets_only_after_emit (parentId : Option String)
    (f : FormState) :
    (validateForm f = false → handleSubmit parentId f = (f, false, [])) ∧
    (validateForm f = true →
      handleSubmit parentId f =
        (⟨"", "", none⟩, true,
         [EmitEvent.submit
            ⟨f.newNodeLabel, parentId, f.description, f.numberOfEmployees⟩,
          EmitEvent.close])) := by
  constructor
  · intro h
    simp [handleSubmit, h, resetAndEmit]
  · intro h
    simp [handleSubmit, h, resetAndEmit]

/-- Witness for C6: a valid submission emits and clears, an invalid one
emits nothing and keeps the fields. -/
theorem handleSubmit_resets_only_after_emit_witness :
    (validateForm ⟨"HR", "people", some 3⟩ = true ∧
      handleSubmit (some "p1") ⟨"HR", "people", some 3⟩ =
        (⟨"", "", none⟩, true,
         [EmitEvent.submit ⟨"HR", some "p1", "people", some 3⟩,
          EmitEvent.close])) ∧
    (validateForm ⟨" ", "people", some (-2)⟩ = false ∧
      handleSubmit none ⟨" ", "people", some (-2)⟩ =
        (⟨" ", "people", some (-2)⟩, false, [])) :=
  ⟨⟨by decide,
    (handleSubmit_resets_only_after_emit (some "p1")
      ⟨"HR", "people", some 3⟩).2 (by decide)⟩,
   ⟨by decide,
    (handleSubmit_resets_only_after_emit none
      ⟨" ", "people", some (-2)⟩).1 (by decide)⟩⟩

/-- Prepending a string already ending in the separator commutes with the
recursive join. -/
theorem sepJoin_append_head (sep x y : String) (t : List String) :
    sepJoin sep ((x ++ sep ++ y) :: t) = x ++ sep ++ sepJoin sep (y :: t) := by
  cases t with
  | nil => rfl
  | cons c t => simp [sepJoin, String.append_assoc]

/-- JavaScript's fold-based join agrees with the recursive join, for any
starting accumulator. -/
theorem foldl_sepJoin (sep : String) (t : List String) :
    ∀ a : String,
      t.foldl (fun acc x => acc ++ sep ++ x) a = sepJoin sep (a :: t) := by
  induction t with
  | nil => intro a; rfl
  | cons b t ih =>
      intro a
      rw [List.foldl_cons, ih, sepJoin_append_head]
      rfl

/-- `Array.prototype.join` agrees with the recursive join. -/
theorem jsJoin_eq_sepJoin (sep : String) (l : List String) :
    jsJoin sep l = sepJoin sep l := by
  cases l with
  | nil => rfl
  | cons a t => exact foldl_sepJoin sep t a

/-- Concatenating a list of strings by left fold appends all their
character data. -/
theorem foldl_append_data (ls : List String) :
    ∀ acc : String,
      (List.foldl (fun r s => r ++ s) acc ls).data =
        acc.data ++ ls.flatMap String.data := by
  induction ls with
  | nil => intro acc; simp
  | cons s t ih =>
      intro acc
      rw [List.foldl_cons, ih, List.flatMap_cons, String.data_append,
        List.append_assoc]

/-- The source's per-character quote doubling agrees with the claim's
flat-map formulation. -/
theorem quoteField_eq_spec (s : String) : quoteField s = quoteFieldSpec s := by
  unfold quoteField quoteFieldSpec escapeQuotes
  congr 2
  apply String.ext
  rw [String.join, foldl_append_data]
  show [] ++ _ = _
  rw [List.nil_append, List.flatMap_map]
  congr 1
  funext c
  split_ifs <;> rfl

/-- Cell rendering agrees with the claim's formulation, including the
`null`/`undefined` case. -/
theorem renderCell_eq_spec (cell : Option String) :
    renderCell cell = renderCellSpec cell := by
  cases cell with
  | none => rfl
  | some s => exact quoteField_eq_spec s

/-- A row's text agrees with the claim's formulation. -/
theorem csvRowLine_eq_spec (row : List (Option String)) :
    csvRowLine row = csvRowLineSpec row := by
  unfold csvRowLine csvRowLineSpec
  rw [jsJoin_eq_sepJoin]
  congr 1
  exact List.map_congr_left (fun c _ => renderCell_eq_spec c)

/-- The header line agrees with the claim's formulation. -/
theorem csvHeaderLine_eq_spec (headers : List String) :
    csvHeaderLine headers = csvHeaderLineSpec headers := by
  unfold csvHeaderLine csvHeaderLineSpec
  rw [jsJoin_eq_sepJoin]
  congr 1
  exact List.map_congr_left (fun h _ => quoteField_eq_spec h)

/-- Joining a nonempty tail separates the head with one separator. -/
theorem sepJoin_cons_of_ne_nil (sep a : String) (l : List String)
    (h : l ≠ []) : sepJoin sep (a :: l) = a ++ sep ++ sepJoin sep l := by
  cases l with
  | nil => exact absurd rfl h
  | cons b t => rfl

/-- C10: the CSV text built by `exportToCSV` is the header line followed
by a newline and the row lines joined by newlines — for nonempty rows,
exactly the newline-join of the header line and one line per row — where
every header and cell is wrapped in double quotes with embedded double
quotes doubled and a `null`/`undefined` cell renders as the empty quoted
string. -/
theorem exportToCSV_builds_quoted_lines
    (rows : List (List (Option String))) (headers : List String) :
    exportToCSVContent rows headers =
      csvHeaderLineSpec headers ++ "\n" ++
        sepJoin "\n" (rows.map csvRowLineSpec) ∧
    (rows ≠ [] →
      exportToCSVContent rows headers =
        sepJoin "\n"
          (csvHeaderLineSpec headers :: rows.map csvRowLineSpec)) := by
  have hmain : exportToCSVContent rows headers =
      csvHeaderLineSpec headers ++ "\n" ++
        sepJoin "\n" (rows.map csvRowLineSpec) := by
    unfold exportToCSVContent
    rw [csvHeaderLine_eq_spec, jsJoin_eq_sepJoin]
    congr 2
    exact List.map_congr_left (fun r _ => csvRowLine_eq_spec r)
  refine ⟨hmain, fun hne => ?_⟩
  rw [hmain, sepJoin_cons_of_ne_nil]
  exact fun h => hne (List.map_eq_nil_iff.mp h)

/-- Witness for C10 at a concrete table with a quoted cell and a `null`
cell. -/
theorem exportToCSV_builds_quoted_lines_witness :
    ([[some "a", none], [some "b\"c", some "d"]] ≠
      ([] : List (List (Option String)))) ∧
    exportToCSVContent [[some "a", none], [some "b\"c", some "d"]]
        ["h1", "h2"] =
      sepJoin "\n"
        (csvHeaderLineSpec ["h1", "h2"] ::
          [[some "a", none], [some "b\"c", some "d"]].map csvRowLineSpec) :=
  ⟨by decide,
   (exportToCSV_builds_quoted_lines
      [[some "a", none], [some "b\"c", some "d"]] ["h1", "h2"]).2
     (by decide)⟩
